import Mathlib

/-!
Verification of the Window-Level Coordination & Streaming Ingestion
subsystem of the Cluemore desktop client (`Frontend/main.js`).

The development shallowly embeds the relevant functions of `main.js`:
  * the streaming ingestion loops of `sendChatMessage` (lines 846-884) and
    `processAccumulatedScreenshots` (lines 1034-1072), which share one
    line-oriented dispatch algorithm;
  * the `PermissionDialogManager` class (lines 309-585): window snapshot,
    lower, restore, safety timer and emergency restore;
  * `handleScreenRecordingPermission` / `waitForPermissionDialogCompletion`
    (lines 463-557);
  * the `update-available` handler of `setupAutoUpdater` (lines 1099-1134).

Strings are processed at the decoded-character level (`List Char`), matching
the JavaScript code which operates on decoded text.
-/

/-! ## JSON values and a model of `JSON.parse`

`main.js` calls the JavaScript builtin `JSON.parse` on each stream line.
We embed JSON values and a recursive-descent parser for the JSON subset
exchanged by the protocol (objects, arrays, strings with simple escapes,
booleans, `null`, integer numbers).  Fuel makes the parser total; the fuel
passed by `jsonParse` is always sufficient because every nesting level
consumes at least one character. -/

inductive Json where
  | null : Json
  | bool : Bool → Json
  | num : Int → Json
  | str : String → Json
  | arr : List Json → Json
  | obj : List (String × Json) → Json

/-- JavaScript truthiness of a JSON value (`if (data.chunk)` tests
truthiness, not presence): `null`, `false`, `0` and `""` are falsy;
objects and arrays are always truthy. -/
def jsTruthy : Json → Bool
  | .null => false
  | .bool b => b
  | .num n => decide (n ≠ 0)
  | .str s => !s.isEmpty
  | .arr _ => true
  | .obj _ => true

/-- Last-binding lookup in a parsed JSON object, matching the JavaScript
semantics that a duplicated key in `JSON.parse` keeps the last occurrence. -/
def lookupLast : List (String × Json) → String → Option Json
  | [], _ => none
  | (k', v) :: rest, k =>
    match lookupLast rest k with
    | some r => some r
    | none => if k' = k then some v else none

/-- Property access `data.k` on a parsed JSON value: defined only when the
value is an object; on every other value the access yields `undefined`
(or throws on `null`, which the surrounding `catch` converts to a skip),
so all non-object cases behave as an absent, falsy field. -/
def getField (j : Json) (k : String) : Option Json :=
  match j with
  | .obj fs => lookupLast fs k
  | _ => none

/-- The field value when it is present and truthy, else `none`. -/
def truthyField (j : Json) (k : String) : Option Json :=
  match getField j k with
  | some v => if jsTruthy v then some v else none
  | none => none

def isJsonWs (c : Char) : Bool :=
  c = ' ' || c = '\n' || c = '\t' || c = '\r'

def skipWs (cs : List Char) : List Char :=
  cs.dropWhile isJsonWs

/-- One escaped character after a backslash inside a JSON string literal. -/
def escChar (c : Char) : Option Char :=
  if c = '"' then some c
  else if c = '\\' then some c
  else if c = '/' then some c
  else if c = 'n' then some '\n'
  else if c = 't' then some '\t'
  else if c = 'r' then some '\r'
  else if c = 'b' then some (Char.ofNat 8)
  else if c = 'f' then some (Char.ofNat 12)
  else none

/-- Strip an expected literal keyword from the front of the input. -/
def stripLit : List Char → List Char → Option (List Char)
  | [], cs => some cs
  | k :: ks, c :: cs => if c = k then stripLit ks cs else none
  | _ :: _, [] => none

/-- Characters of a JSON string literal after the opening quote; returns the
content and the remainder after the closing quote. -/
def parseStrChars : List Char → Option (List Char × List Char)
  | [] => none
  | '"' :: rest => some ([], rest)
  | '\\' :: c :: rest =>
    match escChar c, parseStrChars rest with
    | some ec, some (cs, rem) => some (ec :: cs, rem)
    | _, _ => none
  | '\\' :: [] => none
  | c :: rest =>
    match parseStrChars rest with
    | some (cs, rem) => some (c :: cs, rem)
    | none => none

def digitsToNat (cs : List Char) : Nat :=
  List.foldl (fun n c => n * 10 + (c.toNat - 48)) 0 cs

/-- An integer JSON number (optional leading minus, decimal digits). -/
def parseNumber (cs : List Char) : Option (Json × List Char) :=
  match cs with
  | '-' :: rest =>
    let ds := rest.takeWhile Char.isDigit
    let rem := rest.dropWhile Char.isDigit
    if ds.isEmpty then none else some (.num (-(digitsToNat ds : Int)), rem)
  | _ =>
    let ds := cs.takeWhile Char.isDigit
    let rem := cs.dropWhile Char.isDigit
    if ds.isEmpty then none else some (.num (digitsToNat ds : Int), rem)

mutual

def parseValue : Nat → List Char → Option (Json × List Char)
  | 0, _ => none
  | fuel + 1, cs =>
    match skipWs cs with
    | '"' :: rest =>
      match parseStrChars rest with
      | some (s, rem) => some (.str ⟨s⟩, rem)
      | none => none
    | '{' :: rest =>
      match skipWs rest with
      | '}' :: rem => some (.obj [], rem)
      | cs' =>
        match parseMembers fuel cs' with
        | some (fs, rem) => some (.obj fs, rem)
        | none => none
    | '[' :: rest =>
      match skipWs rest with
      | ']' :: rem => some (.arr [], rem)
      | cs' =>
        match parseElems fuel cs' with
        | some (xs, rem) => some (.arr xs, rem)
        | none => none
    | other =>
      match stripLit ['t', 'r', 'u', 'e'] other with
      | some rest => some (.bool true, rest)
      | none =>
        match stripLit ['f', 'a', 'l', 's', 'e'] other with
        | some rest => some (.bool false, rest)
        | none =>
          match stripLit ['n', 'u', 'l', 'l'] other with
          | some rest => some (.null, rest)
          | none => parseNumber other

def parseMembers : Nat → List Char → Option (List (String × Json) × List Char)
  | 0, _ => none
  | fuel + 1, cs =>
    match skipWs cs with
    | '"' :: rest =>
      match parseStrChars rest with
      | some (k, rem) =>
        match skipWs rem with
        | ':' :: rem2 =>
          match parseValue fuel rem2 with
          | some (v, rem3) =>
            match skipWs rem3 with
            | ',' :: rem4 =>
              match parseMembers fuel rem4 with
              | some (fs, rem5) => some ((⟨k⟩, v) :: fs, rem5)
              | none => none
            | '}' :: rem4 => some ([(⟨k⟩, v)], rem4)
            | _ => none
          | none => none
        | _ => none
      | none => none
    | _ => none

def parseElems : Nat → List Char → Option (List Json × List Char)
  | 0, _ => none
  | fuel + 1, cs =>
    match parseValue fuel cs with
    | some (v, rem) =>
      match skipWs rem with
      | ',' :: rem2 =>
        match parseElems fuel rem2 with
        | some (xs, rem3) => some (v :: xs, rem3)
        | none => none
      | ']' :: rem2 => some ([v], rem2)
      | _ => none
    | none => none

end

/-- `JSON.parse` on the characters of one payload: a single JSON value with
nothing but whitespace after it; anything else throws, modelled as `none`. -/
def jsonParse (cs : List Char) : Option Json :=
  match parseValue (cs.length + 1) cs with
  | some (j, rem) => if (skipWs rem).isEmpty then some j else none
  | none => none

/-! ## The streaming ingestion loops

`sendChatMessage` (main.js 846-884) and `processAccumulatedScreenshots`
(main.js 1034-1072) contain the identical loop, differing only in the
renderer channel names.  On each read the decoded chunk is split on
newlines, every piece starting with the marker `"data: "` is JSON-parsed,
and the parsed object is dispatched: a truthy `chunk` field sends a chunk
event and continues; otherwise a truthy `complete` field sends the
completion event and returns from the whole function; otherwise a truthy
`error` field sends the error event and returns; a parse failure is logged
and skipped.  There is no carry-over buffer between reads. -/

inductive StreamEvent where
  | chunk : Json → StreamEvent
  | complete : StreamEvent
  | error : Json → StreamEvent

def isTerminal : StreamEvent → Bool
  | .chunk _ => false
  | .complete => true
  | .error _ => true

/-- Outcome of processing one line. -/
inductive LineRes where
  | skip : LineRes
  | emitChunk : Json → LineRes
  | termComplete : LineRes
  | termError : Json → LineRes

def isTermRes : LineRes → Bool
  | .termComplete => true
  | .termError _ => true
  | _ => false

/-- Dispatch on a parsed data object, mirroring
`if (data.chunk) ... else if (data.complete) ... else if (data.error) ...`. -/
def dispatchData (j : Json) : LineRes :=
  match truthyField j "chunk" with
  | some c => .emitChunk c
  | none =>
    match truthyField j "complete" with
    | some _ => .termComplete
    | none =>
      match truthyField j "error" with
      | some e => .termError e
      | none => .skip

/-- One line of the stream: `if (line.startsWith('data: '))` then
`JSON.parse(line.slice(6))` and dispatch; parse failures are caught and
skipped; other lines are ignored. -/
def processLine (l : List Char) : LineRes :=
  match l with
  | 'd' :: 'a' :: 't' :: 'a' :: ':' :: ' ' :: rest =>
    match jsonParse rest with
    | some j => dispatchData j
    | none => .skip
  | _ => .skip

/-- `chunk.split('\n')`: JavaScript `String.split` on a single-character
separator, keeping empty pieces. -/
def splitLines : List Char → List (List Char)
  | [] => [[]]
  | c :: rest =>
    if c = '\n' then [] :: splitLines rest
    else
      match splitLines rest with
      | l :: ls => (c :: l) :: ls
      | [] => [[c]]

/-- The inner `for (const line of lines)` loop: events emitted from the
lines of one read, plus whether a terminal line caused the enclosing
function to return (discarding every later line and read). -/
def processLines : List (List Char) → List StreamEvent × Bool
  | [] => ([], false)
  | l :: ls =>
    match processLine l with
    | .skip => processLines ls
    | .emitChunk v =>
      let r := processLines ls
      (.chunk v :: r.1, r.2)
    | .termComplete => ([.complete], true)
    | .termError v => ([.error v], true)

/-- The outer `while (true) { const { done, value } = await reader.read() ... }`
loop over the successive decoded reads: each read is split and processed;
a terminal line returns from the function; exhaustion (`done`) just breaks,
emitting nothing further. -/
def ingestReads : List (List Char) → List StreamEvent
  | [] => []
  | r :: rs =>
    let p := processLines (splitLines r)
    if p.2 then p.1 else p.1 ++ ingestReads rs

/-- The chunk events a single line contributes. -/
def lineChunks (l : List Char) : List StreamEvent :=
  match processLine l with
  | .emitChunk v => [.chunk v]
  | _ => []

/-- All chunk events of all lines of all reads, in receipt order. -/
def allChunkEvents (reads : List (List Char)) : List StreamEvent :=
  reads.flatMap fun r => (splitLines r).flatMap lineChunks

/-! ## Windows and the `PermissionDialogManager`

`main.js` manages three possible overlay windows (`win` / `'main'`,
`authWin` / `'auth'`, `promptEditorWin` / `'editor'`).  A window's
always-on-top state is a level: `setAlwaysOnTop(true, 'screen-saver')`
raises to the elevated (`screenSaver`) level, `setAlwaysOnTop(false)`
returns to normal stacking. -/

inductive WinLevel where
  | normal : WinLevel
  | screenSaver : WinLevel
deriving DecidableEq

structure BrowserWindow where
  isDestroyed : Bool
  isVisible : Bool
  level : WinLevel
deriving DecidableEq

/-- `w.setAlwaysOnTop(flag, lvl)`; `setAlwaysOnTop(false)` ignores the
level argument and returns the window to normal stacking. -/
def BrowserWindow.setAlwaysOnTop (w : BrowserWindow) (flag : Bool) (lvl : WinLevel) :
    BrowserWindow :=
  { w with level := if flag then lvl else .normal }

def BrowserWindow.isAlwaysOnTop (w : BrowserWindow) : Bool :=
  w.level != .normal

/-- The three module-level window references of `main.js`; `none` models a
null reference. -/
structure WindowsEnv where
  main : Option BrowserWindow
  auth : Option BrowserWindow
  editor : Option BrowserWindow
deriving DecidableEq

/-- One entry of `originalWindowStates` (main.js 319-347): the
always-on-top flag and visibility captured at snapshot time.  The window
reference stored alongside is recovered from `WindowsEnv` by key. -/
structure SnapEntry where
  isAlwaysOnTop : Bool
  isVisible : Bool
deriving DecidableEq

/-- The `originalWindowStates` map keyed by `'main'`, `'auth'`, `'editor'`. -/
structure Snapshot where
  main : Option SnapEntry
  auth : Option SnapEntry
  editor : Option SnapEntry
deriving DecidableEq

def emptySnapshot : Snapshot := ⟨none, none, none⟩

/-- The mutable fields of the `PermissionDialogManager` class
(main.js 309-316).  The pending safety timer is modelled by the delay it
was armed with (`none` when no timer handle is stored). -/
structure PermissionDialogManager where
  isDialogActive : Bool
  originalWindowStates : Snapshot
  restoreTimeout : Option Nat
  maxWaitTime : Nat
deriving DecidableEq

/-- The module-level instance created at startup (main.js 588):
constructor defaults `isDialogActive = false`, empty snapshot, no timer,
`maxWaitTime = 30000`. -/
def permissionDialogManager : PermissionDialogManager :=
  ⟨false, emptySnapshot, none, 30000⟩

/-- `saveWindowStates` (main.js 319-347): clear the map, then store
`{isAlwaysOnTop, isVisible}` for every window reference that exists and is
not destroyed. -/
def saveEntry (w : Option BrowserWindow) : Option SnapEntry :=
  w.bind fun w =>
    if w.isDestroyed then none else some ⟨w.isAlwaysOnTop, w.isVisible⟩

def saveWindowStates (env : WindowsEnv) : Snapshot :=
  ⟨saveEntry env.main, saveEntry env.auth, saveEntry env.editor⟩

/-- The lowering loop body of `lowerAllWindowsForDialog` (main.js 367-376):
for a snapshot entry whose window is alive, `setAlwaysOnTop(false)`. -/
def lowerWindow (snap : Option SnapEntry) (w : Option BrowserWindow) :
    Option BrowserWindow :=
  match snap, w with
  | some _, some w =>
    if w.isDestroyed then some w else some (w.setAlwaysOnTop false .normal)
  | _, _ => w

/-- `lowerAllWindowsForDialog` (main.js 350-381): a no-op when a dialog
session is already active; otherwise mark the session active, snapshot the
live windows, and lower each of them to normal level.  The `dialogType`
argument is only logged. -/
def lowerAllWindowsForDialog (dialogType : String) (st : PermissionDialogManager)
    (env : WindowsEnv) : PermissionDialogManager × WindowsEnv :=
  let _ := dialogType
  if st.isDialogActive then (st, env)
  else
    let snap := saveWindowStates env
    let env' : WindowsEnv :=
      ⟨lowerWindow snap.main env.main, lowerWindow snap.auth env.auth,
        lowerWindow snap.editor env.editor⟩
    ({ st with isDialogActive := true, originalWindowStates := snap }, env')

/-- The restore loop body of `restoreAllWindowsAfterDialog`
(main.js 405-422): for a snapshot entry whose window is alive, restore to
the elevated level exactly when the pin preference is enabled and the
window was visible at snapshot time, else to normal level. -/
def restoreWindow (isPinnedOnTop : Bool) (snap : Option SnapEntry)
    (w : Option BrowserWindow) : Option BrowserWindow :=
  match snap, w with
  | some s, some w =>
    if w.isDestroyed then some w
    else if isPinnedOnTop && s.isVisible then
      some (w.setAlwaysOnTop true .screenSaver)
    else some (w.setAlwaysOnTop false .normal)
  | _, _ => w

/-- `restoreAllWindowsAfterDialog(forceDelay)` (main.js 384-427): early
return when no session is active (note: before the timer handle is
cleared); otherwise clear the stored safety-timer handle, wait
`max(forceDelay, 500)` ms, restore every snapshot window, and
unconditionally clear the session flag and the snapshot. -/
def restoreAllWindowsAfterDialog (isPinnedOnTop : Bool) (forceDelay : Nat)
    (st : PermissionDialogManager) (env : WindowsEnv) :
    PermissionDialogManager × WindowsEnv :=
  if st.isDialogActive then
    let snap := st.originalWindowStates
    let env' : WindowsEnv :=
      ⟨restoreWindow isPinnedOnTop snap.main env.main,
        restoreWindow isPinnedOnTop snap.auth env.auth,
        restoreWindow isPinnedOnTop snap.editor env.editor⟩
    let _ := max forceDelay 500
    let st' : PermissionDialogManager :=
      { st with
          isDialogActive := false
          originalWindowStates := emptySnapshot
          restoreTimeout := none }
    (st', env')
  else (st, env)

/-- `enableSafetyRestore` (main.js 560-572): replace any stored timer
handle with a fresh one-shot timer armed for `maxWaitTime` ms. -/
def enableSafetyRestore (st : PermissionDialogManager) : PermissionDialogManager :=
  { st with restoreTimeout := some st.maxWaitTime }

/-- The body of the safety timer callback (main.js 566-571): when it
fires, force-restore only if a dialog session is still active. -/
def safetyRestoreFire (isPinnedOnTop : Bool) (st : PermissionDialogManager)
    (env : WindowsEnv) : PermissionDialogManager × WindowsEnv :=
  if st.isDialogActive then restoreAllWindowsAfterDialog isPinnedOnTop 100 st env
  else (st, env)

/-- `emergencyRestore` (main.js 575-584): clear any pending safety timer,
force-clear the active flag, then call `restoreAllWindowsAfterDialog(0)`. -/
def emergencyRestore (isPinnedOnTop : Bool) (st : PermissionDialogManager)
    (env : WindowsEnv) : PermissionDialogManager × WindowsEnv :=
  let st1 := { st with restoreTimeout := none }
  let st2 := { st1 with isDialogActive := false }
  restoreAllWindowsAfterDialog isPinnedOnTop 0 st2 env

/-! ## Screen-recording permission handling -/

inductive MediaAccessStatus where
  | granted : MediaAccessStatus
  | denied : MediaAccessStatus
  | notDetermined : MediaAccessStatus
  | restricted : MediaAccessStatus
deriving DecidableEq

/-- `waitForPermissionDialogCompletion` (main.js 530-557): poll the
capability status every 500 ms until it differs from the captured initial
status or the time budget elapses; `query i` is the status observed at the
i-th poll.  With the default budget of 30000 ms the loop performs
`maxPolls = 60` polls.  Returns whether a change was detected. -/
def waitForPermissionDialogCompletion (query : Nat → MediaAccessStatus)
    (initialStatus : MediaAccessStatus) (maxPolls : Nat) : Bool :=
  (List.range maxPolls).any fun i => decide (query i ≠ initialStatus)

/-- The environment of one `handleScreenRecordingPermission` call: the
status read at entry, the statuses the polls observe, and the outcome of
the n-th invocation of the guarded operation. -/
structure ScreenPermEnv (E V : Type) where
  initialStatus : MediaAccessStatus
  query : Nat → MediaAccessStatus
  op : Nat → Except E V

/-- Observable result of `handleScreenRecordingPermission`: the value
returned (or error thrown), how many times the guarded operation ran,
whether the polling loop ran, and the final manager/window state. -/
structure PermRunResult (E V : Type) where
  outcome : Except E V
  opCalls : Nat
  polled : Bool
  manager : PermissionDialogManager
  windows : WindowsEnv

def snapshotSize (s : Snapshot) : Nat :=
  (if s.main.isSome then 1 else 0) + (if s.auth.isSome then 1 else 0) +
    (if s.editor.isSome then 1 else 0)

/-- `handleScreenRecordingPermission` (main.js 463-527).  Already granted:
run the operation once directly (restore on success; an exception
propagates).  Otherwise: run the operation once, poll for a status change;
on a detected change retry a failed operation exactly once and surface the
retry's outcome; on timeout surface the original outcome; finally restore
(or, with an empty snapshot, just clear the session flags). -/
def handleScreenRecordingPermission {E V : Type} (isPinnedOnTop : Bool)
    (maxPolls : Nat) (p : ScreenPermEnv E V) (st : PermissionDialogManager)
    (env : WindowsEnv) : PermRunResult E V :=
  if p.initialStatus = .granted then
    match p.op 0 with
    | .ok v =>
      let r := restoreAllWindowsAfterDialog isPinnedOnTop 0 st env
      ⟨.ok v, 1, false, r.1, r.2⟩
    | .error e => ⟨.error e, 1, false, st, env⟩
  else
    let r0 := p.op 0
    let dialogHandled := waitForPermissionDialogCompletion p.query p.initialStatus maxPolls
    let oc : Except E V × Nat :=
      if dialogHandled then
        match r0 with
        | .error _ => (p.op 1, 2)
        | .ok v => (.ok v, 1)
      else (r0, 1)
    let r :=
      if 0 < snapshotSize st.originalWindowStates then
        restoreAllWindowsAfterDialog isPinnedOnTop 0 st env
      else
        ({ st with isDialogActive := false, originalWindowStates := emptySnapshot }, env)
    ⟨oc.1, oc.2, true, r.1, r.2⟩

/-! ## The `update-available` handler of `setupAutoUpdater` -/

/-- What the handler sends on the `update-notification` channel. -/
inductive UpdateNotice where
  | upToDate : String → UpdateNotice
  | downloadStarted : String → UpdateNotice
deriving DecidableEq

/-- `normalizeVersion` (main.js 1104): `v.replace(/^v/, '')`, removing one
leading `v`. -/
def normalizeVersion (v : String) : String :=
  match v.data with
  | 'v' :: rest => ⟨rest⟩
  | _ => v

/-- The `update-available` handler body (main.js 1099-1134): compare the
normalized current and available version strings; when equal, send the
up-to-date notice carrying the current version and return without
downloading; otherwise send the download-started notice for the available
version. -/
def updateOnAvailable (currentVersion availableVersion : String) : UpdateNotice :=
  if normalizeVersion currentVersion = normalizeVersion availableVersion then
    .upToDate currentVersion
  else
    .downloadStarted availableVersion

/-- Splitting a character list on one separator character, keeping empty
pieces. -/
def splitOnChar (sep : Char) : List Char → List (List Char)
  | [] => [[]]
  | c :: rest =>
    if c = sep then [] :: splitOnChar sep rest
    else
      match splitOnChar sep rest with
      | l :: ls => (c :: l) :: ls
      | [] => [[c]]

/-- Modelled from the spec: the version comparison the specification
prescribes for the update controller — numeric-tuple comparison of
`major.minor.patch` with any optional pre-release suffix (after `-`)
ignored for equality purposes.  This definition follows the spec's words
and exists only to be compared with `updateOnAvailable`, which is the
code's behaviour. -/
def specVersionNums (v : String) : List Nat :=
  let core := (splitOnChar '-' v.data).headD []
  (splitOnChar '.' core).map digitsToNat

def specVersionEq (a b : String) : Bool :=
  specVersionNums a == specVersionNums b

/-! ## Helper lemmas about the ingestion loop -/

/-- A read whose line loop hit no terminal line emits only chunk events. -/
theorem processLines_not_terminated (ls : List (List Char))
    (h : (processLines ls).2 = false) :
    ∀ e ∈ (processLines ls).1, isTerminal e = false := by
  induction ls with
  | nil => intro e he; simp [processLines] at he
  | cons l ls ih =>
    cases hpl : processLine l with
    | skip =>
      intro e he
      rw [processLines, hpl] at he
      rw [processLines, hpl] at h
      exact ih h e he
    | emitChunk v =>
      intro e he
      rw [processLines, hpl] at he
      rw [processLines, hpl] at h
      rcases List.mem_cons.mp he with rfl | he
      · rfl
      · exact ih h e he
    | termComplete => rw [processLines, hpl] at h; simp at h
    | termError v => rw [processLines, hpl] at h; simp at h

/-- A read whose line loop hit a terminal line emits some chunk events
followed by exactly one terminal event. -/
theorem processLines_terminated (ls : List (List Char))
    (h : (processLines ls).2 = true) :
    ∃ pre t, (processLines ls).1 = pre ++ [t] ∧ isTerminal t = true ∧
      ∀ e ∈ pre, isTerminal e = false := by
  induction ls with
  | nil => simp [processLines] at h
  | cons l ls ih =>
    cases hpl : processLine l with
    | skip =>
      rw [processLines, hpl] at h ⊢
      exact ih h
    | emitChunk v =>
      rw [processLines, hpl] at h ⊢
      obtain ⟨pre, t, heq, hT, hpre⟩ := ih h
      refine ⟨.chunk v :: pre, t, ?_, hT, ?_⟩
      · simp [heq]
      · intro e he
        rcases List.mem_cons.mp he with rfl | he
        · rfl
        · exact hpre e he
    | termComplete =>
      rw [processLines, hpl]
      exact ⟨[], .complete, rfl, rfl, by simp⟩
    | termError v =>
      rw [processLines, hpl]
      exact ⟨[], .error v, rfl, rfl, by simp⟩

/-- Shape of the full event sequence: either no terminal event at all, or
chunk events followed by a single terminal event, after which further
reads change nothing. -/
theorem ingestReads_shape (reads : List (List Char)) :
    (∀ e ∈ ingestReads reads, isTerminal e = false) ∨
    (∃ pre t, ingestReads reads = pre ++ [t] ∧ isTerminal t = true ∧
      (∀ e ∈ pre, isTerminal e = false) ∧
      ∀ more, ingestReads (reads ++ more) = ingestReads reads) := by
  induction reads with
  | nil => left; intro e he; simp [ingestReads] at he
  | cons r rs ih =>
    cases hterm : (processLines (splitLines r)).2 with
    | true =>
      right
      obtain ⟨pre, t, heq, hT, hpre⟩ := processLines_terminated _ hterm
      refine ⟨pre, t, ?_, hT, hpre, ?_⟩
      · rw [ingestReads, hterm]; simpa using heq
      · intro more
        rw [List.cons_append, ingestReads, hterm, ingestReads, hterm]
        simp
    | false =>
      have hfst := processLines_not_terminated _ hterm
      rcases ih with hall | ⟨pre, t, heq, hT, hpre, hstab⟩
      · left
        intro e he
        rw [ingestReads, hterm] at he
        simp only [Bool.false_eq_true, if_false] at he
        rcases List.mem_append.mp he with he | he
        · exact hfst e he
        · exact hall e he
      · right
        refine ⟨(processLines (splitLines r)).1 ++ pre, t, ?_, hT, ?_, ?_⟩
        · rw [ingestReads, hterm]
          simp [heq]
        · intro e he
          rcases List.mem_append.mp he with he | he
          · exact hfst e he
          · exact hpre e he
        · intro more
          rw [List.cons_append, ingestReads, hterm, ingestReads, hterm,
            hstab more]

/-- A list of events that are all non-terminal has no terminal filtrate. -/
theorem filter_terminal_nil : ∀ l : List StreamEvent,
    (∀ e ∈ l, isTerminal e = false) → l.filter isTerminal = [] := by
  intro l
  induction l with
  | nil => intro _; rfl
  | cons e l ih =>
    intro h
    have he := h e (List.mem_cons_self e l)
    simp [List.filter, he]
    exact fun x hx => h x (List.mem_cons_of_mem e hx)

theorem dropLast_append_single (l : List StreamEvent) (t : StreamEvent) :
    (l ++ [t]).dropLast = l := by
  induction l with
  | nil => rfl
  | cons e l ih =>
    cases l with
    | nil => rfl
    | cons f l => simpa using ih

/-- A read with no terminal line contributes exactly its chunk events. -/
theorem processLines_all_skip (ls : List (List Char))
    (h : ∀ l ∈ ls, isTermRes (processLine l) = false) :
    processLines ls = (ls.flatMap lineChunks, false) := by
  induction ls with
  | nil => rfl
  | cons l ls ih =>
    have hl := h l (List.mem_cons_self l ls)
    have hrest : ∀ x ∈ ls, isTermRes (processLine x) = false :=
      fun x hx => h x (List.mem_cons_of_mem l hx)
    cases hpl : processLine l with
    | skip =>
      rw [processLines, hpl, ih hrest]
      simp [lineChunks, hpl]
    | emitChunk v =>
      rw [processLines, hpl, ih hrest]
      simp [lineChunks, hpl]
    | termComplete => rw [hpl] at hl; simp [isTermRes] at hl
    | termError v => rw [hpl] at hl; simp [isTermRes] at hl

theorem lineChunks_not_terminal (l : List Char) :
    ∀ e ∈ lineChunks l, isTerminal e = false := by
  intro e he
  unfold lineChunks at he
  cases hpl : processLine l <;> rw [hpl] at he <;> simp at he
  subst he
  rfl

/-! ## Claim theorems -/

/-- Claim C1 (code_bug evaluation): the ingestion loop is NOT
chunking-invariant, because no carry-over buffer exists.  Delivering the
bytes of `data: \x7b"chunk":"hi"\x7d\n` split mid-record across two reads
emits no event at all (the first fragment fails `JSON.parse` and is
skipped, the second lacks the `data: ` marker), while the same bytes in a
single read emit exactly one chunk event with value `"hi"`. -/
theorem c1_split_read_drops_chunk :
    ingestReads ["data: \x7b\"chu".data, "nk\":\"hi\"\x7d\n".data] = [] ∧
    ingestReads ["data: \x7b\"chu".data ++ "nk\":\"hi\"\x7d\n".data] =
      [.chunk (.str "hi")] :=
  ⟨rfl, rfl⟩

/-- Claim C3 (counterexample): a stream whose source is exhausted after a
single chunk line — never delivering a `complete` or `error` field — does
not surface any error-shaped result: the emitted sequence is exactly the
one chunk event, with no terminal or error event, and the function returns
silently. -/
theorem c3_silent_end_counterexample :
    ingestReads ["data: \x7b\"chunk\":\"hi\"\x7d\n".data] = [.chunk (.str "hi")] ∧
    (ingestReads ["data: \x7b\"chunk\":\"hi\"\x7d\n".data]).all
      (fun e => !isTerminal e) = true :=
  ⟨rfl, rfl⟩

/-- Claim C3 (amended): when the byte source is exhausted without any line
ever carrying a truthy `complete` or `error` field, the ingestion loop
ends silently — it emits exactly the chunk events of all its lines in
order and produces no terminal (error-shaped) event; no implicit error is
surfaced to the caller or the UI channel. -/
theorem c3_exhaustion_silent (reads : List (List Char))
    (h : ∀ r ∈ reads, ∀ l ∈ splitLines r, isTermRes (processLine l) = false) :
    ingestReads reads = allChunkEvents reads ∧
      ∀ e ∈ ingestReads reads, isTerminal e = false := by
  have heq : ingestReads reads = allChunkEvents reads := by
    induction reads with
    | nil => rfl
    | cons r rs ih =>
      have hr := processLines_all_skip (splitLines r)
        (h r (List.mem_cons_self r rs))
      rw [ingestReads, hr]
      simp only [Bool.false_eq_true, if_false]
      rw [ih fun x hx => h x (List.mem_cons_of_mem r hx)]
      rfl
  refine ⟨heq, ?_⟩
  rw [heq]
  intro e he
  unfold allChunkEvents at he
  simp only [List.mem_flatMap] at he
  obtain ⟨r, _, l, _, hel⟩ := he
  exact lineChunks_not_terminal l e hel

/-- Claim C3 witness for the amended theorem: a concrete exhausted stream
with one chunk line and no terminal line ingests to exactly its chunk
events. -/
theorem c3_exhaustion_silent_witness :
    ingestReads ["data: \x7b\"chunk\":\"hi\"\x7d\n".data] =
      allChunkEvents ["data: \x7b\"chunk\":\"hi\"\x7d\n".data] :=
  (c3_exhaustion_silent ["data: \x7b\"chunk\":\"hi\"\x7d\n".data]
    (by decide)).1

/-- Claim C4: over any sequence of reads, the ingestion loop emits at most
one terminal event; every event before the last one is a chunk event (so
all chunk events strictly precede the terminal event and nothing follows
it); and once a terminal event has been emitted, appending further reads
(remaining bytes after the terminal line) changes nothing — they are
discarded. -/
theorem c4_terminal_unique_and_last (reads : List (List Char)) :
    ((ingestReads reads).filter isTerminal).length ≤ 1 ∧
    (∀ e ∈ (ingestReads reads).dropLast, isTerminal e = false) ∧
    ∀ more, (∃ e ∈ ingestReads reads, isTerminal e = true) →
      ingestReads (reads ++ more) = ingestReads reads := by
  rcases ingestReads_shape reads with hall | ⟨pre, t, heq, hT, hpre, hstab⟩
  · refine ⟨?_, ?_, ?_⟩
    · rw [filter_terminal_nil _ hall]; simp
    · intro e he
      exact hall e (List.dropLast_subset _ he)
    · rintro more ⟨e, he, hte⟩
      rw [hall e he] at hte
      simp at hte
  · refine ⟨?_, ?_, ?_⟩
    · rw [heq, List.filter_append, filter_terminal_nil _ hpre]
      simp [List.filter, hT]
    · intro e he
      rw [heq, dropLast_append_single] at he
      exact hpre e he
    · intro more _
      exact hstab more

/-- Claim C4 witness: a concrete stream with one chunk line and one
complete line; an extra appended read is discarded. -/
theorem c4_terminal_unique_and_last_witness :
    ingestReads
        (["data: \x7b\"chunk\":\"hi\"\x7d\ndata: \x7b\"complete\": true\x7d\n".data]
          ++ [['x']]) =
      ingestReads
        ["data: \x7b\"chunk\":\"hi\"\x7d\ndata: \x7b\"complete\": true\x7d\n".data] :=
  (c4_terminal_unique_and_last
    ["data: \x7b\"chunk\":\"hi\"\x7d\ndata: \x7b\"complete\": true\x7d\n".data]).2.2
    [['x']] (by decide)

/-- Claim C10: dispatch tests field truthiness in the fixed order `chunk`,
`complete`, `error`: an empty-string `chunk` emits nothing and the stream
continues; `complete: false` and `error: ""` are not terminal; a payload
with both a truthy `chunk` and a `complete` field emits only the chunk
event, without terminating; and an empty-chunk line really lets the stream
continue to later lines. -/
theorem c10_truthiness_dispatch :
    dispatchData (.obj [("chunk", .str "")]) = .skip ∧
    dispatchData (.obj [("complete", .bool false)]) = .skip ∧
    dispatchData (.obj [("error", .str "")]) = .skip ∧
    (∀ (s : String) (co er : Json), s ≠ "" →
      dispatchData (.obj [("chunk", .str s), ("complete", co), ("error", er)]) =
        .emitChunk (.str s)) ∧
    ingestReads ["data: \x7b\"chunk\":\"\"\x7d\ndata: \x7b\"chunk\":\"hi\"\x7d\n".data] =
      [.chunk (.str "hi")] := by
  refine ⟨rfl, rfl, rfl, ?_, rfl⟩
  intro s co er hs
  have hie : s.isEmpty = false := by
    cases hsi : s.isEmpty
    · rfl
    · exact absurd ((String.isEmpty_iff s).mp hsi) hs
  simp [dispatchData, truthyField, getField, lookupLast, jsTruthy, hie]

/-- Claim C10 witness: a payload carrying both a truthy chunk and a truthy
complete field emits only the chunk event. -/
theorem c10_truthiness_dispatch_witness :
    dispatchData (.obj [("chunk", .str "hi"), ("complete", .bool true), ("error", .null)]) =
      .emitChunk (.str "hi") :=
  c10_truthiness_dispatch.2.2.2.1 "hi" (.bool true) .null (by decide)

/-- Claim C2 (code_bug evaluation): `emergencyRestore` cancels the safety
timer and clears the active flag, but never performs any window-level
restoration: it clears `isDialogActive` *before* calling
`restoreAllWindowsAfterDialog(0)`, whose inactive-session guard then
returns immediately, leaving every window level (and the stale snapshot)
untouched for every manager state and window environment. -/
theorem c2_emergencyRestore_never_restores (isPinnedOnTop : Bool)
    (st : PermissionDialogManager) (env : WindowsEnv) :
    emergencyRestore isPinnedOnTop st env =
      ({ st with isDialogActive := false, restoreTimeout := none }, env) :=
  rfl

/-- Claim C5: with an active session, `restoreAllWindowsAfterDialog` sets
every snapshot-entry window that is still alive to the elevated
(`screen-saver`) level exactly when the process-wide pin preference is
enabled AND the window was visible at snapshot time, and to normal level
otherwise — independent of the window's current level and of the
snapshot's recorded always-on-top flag; a window hidden at snapshot time
is never restored to the elevated level. -/
theorem c5_restore_levels (isPinnedOnTop : Bool) (forceDelay : Nat)
    (st : PermissionDialogManager) (env : WindowsEnv)
    (hact : st.isDialogActive = true) :
    (∀ s w, st.originalWindowStates.main = some s → env.main = some w →
      w.isDestroyed = false →
      (restoreAllWindowsAfterDialog isPinnedOnTop forceDelay st env).2.main =
        some { w with level :=
          if isPinnedOnTop && s.isVisible then WinLevel.screenSaver
          else WinLevel.normal }) ∧
    (∀ s w, st.originalWindowStates.auth = some s → env.auth = some w →
      w.isDestroyed = false →
      (restoreAllWindowsAfterDialog isPinnedOnTop forceDelay st env).2.auth =
        some { w with level :=
          if isPinnedOnTop && s.isVisible then WinLevel.screenSaver
          else WinLevel.normal }) ∧
    (∀ s w, st.originalWindowStates.editor = some s → env.editor = some w →
      w.isDestroyed = false →
      (restoreAllWindowsAfterDialog isPinnedOnTop forceDelay st env).2.editor =
        some { w with level :=
          if isPinnedOnTop && s.isVisible then WinLevel.screenSaver
          else WinLevel.normal }) := by
  refine ⟨?_, ?_, ?_⟩ <;>
    · intro s w hs hw hd
      simp only [restoreAllWindowsAfterDialog, hact, if_true]
      simp only [restoreWindow, hs, hw, hd]
      cases hps : isPinnedOnTop && s.isVisible <;>
        simp [BrowserWindow.setAlwaysOnTop, hps, hd]

/-- Claim C5 witness: three-window scenario — pinned preference on, main
window visible at snapshot time and lowered to normal level; after restore
it sits at the elevated level. -/
theorem c5_restore_levels_witness :
    (restoreAllWindowsAfterDialog true 0
        ⟨true, ⟨some ⟨true, true⟩, some ⟨false, false⟩, none⟩, none, 30000⟩
        ⟨some ⟨false, true, .normal⟩, some ⟨false, false, .normal⟩, none⟩).2.main =
      some ⟨false, true, .screenSaver⟩ :=
  (c5_restore_levels true 0
      ⟨true, ⟨some ⟨true, true⟩, some ⟨false, false⟩, none⟩, none, 30000⟩
      ⟨some ⟨false, true, .normal⟩, some ⟨false, false, .normal⟩, none⟩ rfl).1
    ⟨true, true⟩ ⟨false, true, .normal⟩ rfl rfl rfl

/-- Claim C6: the session flag is the single DialogSession, so at most one
session is ever active, and `lowerAllWindowsForDialog` issued while a
session is active returns without any state change: manager state
(snapshot, active flag, timer) and every window level are unchanged, and
nothing is thrown. -/
theorem c6_lower_noop_when_active (dialogType : String)
    (st : PermissionDialogManager) (env : WindowsEnv)
    (hact : st.isDialogActive = true) :
    lowerAllWindowsForDialog dialogType st env = (st, env) := by
  simp [lowerAllWindowsForDialog, hact]

/-- Claim C6 witness: a second `lower` during an active session changes
nothing. -/
theorem c6_lower_noop_when_active_witness :
    lowerAllWindowsForDialog "permission"
        ⟨true, emptySnapshot, none, 30000⟩ ⟨some ⟨false, true, .normal⟩, none, none⟩ =
      (⟨true, emptySnapshot, none, 30000⟩, ⟨some ⟨false, true, .normal⟩, none, none⟩) :=
  c6_lower_noop_when_active "permission" _ _ rfl

/-- Claim C9 (counterexample): not every `restoreAllWindowsAfterDialog`
call clears the stored timer handle — a call made while no session is
active returns through the early guard *before* the handle is cleared, so
an armed handle survives it. -/
theorem c9_inactive_restore_keeps_timer :
    (restoreAllWindowsAfterDialog true 0
        ⟨false, emptySnapshot, some 30000, 30000⟩ ⟨none, none, none⟩).1.restoreTimeout =
      some 30000 :=
  rfl

/-- Claim C9 (amended): `enableSafetyRestore` stores a fresh one-shot
timer handle armed for `maxWaitTime` ms (30000 on the startup instance);
the timer callback force-restores exactly when a session is still active
when it fires; `restoreAllWindowsAfterDialog` clears the stored handle on
every call made while a session is active (a call with no active session
returns before clearing), and `emergencyRestore` always clears it — so a
normal restore, which requires an active session, always removes the
handle and no stale force-restore can fire afterwards. -/
theorem c9_safety_timer_protocol :
    (∀ st, (enableSafetyRestore st).restoreTimeout = some st.maxWaitTime) ∧
    permissionDialogManager.maxWaitTime = 30000 ∧
    (∀ isPinnedOnTop forceDelay st env, st.isDialogActive = true →
      (restoreAllWindowsAfterDialog isPinnedOnTop forceDelay st env).1.restoreTimeout =
        none) ∧
    (∀ isPinnedOnTop st env,
      (emergencyRestore isPinnedOnTop st env).1.restoreTimeout = none) ∧
    (∀ isPinnedOnTop st env, st.isDialogActive = false →
      safetyRestoreFire isPinnedOnTop st env = (st, env)) ∧
    (∀ isPinnedOnTop st env, st.isDialogActive = true →
      safetyRestoreFire isPinnedOnTop st env =
        restoreAllWindowsAfterDialog isPinnedOnTop 100 st env) := by
  refine ⟨fun st => rfl, rfl, ?_, fun p st env => rfl, ?_, ?_⟩
  · intro p d st env hact
    simp [restoreAllWindowsAfterDialog, hact]
  · intro p st env hinact
    simp [safetyRestoreFire, hinact]
  · intro p st env hact
    simp [safetyRestoreFire, hact]

/-- Claim C9 witness: a restore call with an active session clears an
armed timer handle. -/
theorem c9_safety_timer_protocol_witness :
    (restoreAllWindowsAfterDialog true 0
        ⟨true, emptySnapshot, some 30000, 30000⟩ ⟨none, none, none⟩).1.restoreTimeout =
      none :=
  c9_safety_timer_protocol.2.2.1 true 0
    ⟨true, emptySnapshot, some 30000, 30000⟩ ⟨none, none, none⟩ rfl

/-- Claim C7: with the capability already granted at entry the guarded
operation runs exactly once and no polling happens, the operation's own
outcome being returned; otherwise the operation runs once and polling
follows: when polling resolves and the original run failed, the operation
is retried exactly once and the retry's outcome (value or error) is what
the caller receives (a successful original run is not retried); when
polling times out, the caller receives the original run's outcome. -/
theorem c7_permission_completion {E V : Type} (isPinnedOnTop : Bool)
    (maxPolls : Nat) (p : ScreenPermEnv E V) (st : PermissionDialogManager)
    (env : WindowsEnv) :
    (p.initialStatus = .granted →
      (handleScreenRecordingPermission isPinnedOnTop maxPolls p st env).opCalls = 1 ∧
      (handleScreenRecordingPermission isPinnedOnTop maxPolls p st env).polled = false ∧
      (handleScreenRecordingPermission isPinnedOnTop maxPolls p st env).outcome = p.op 0) ∧
    (p.initialStatus ≠ .granted →
      (handleScreenRecordingPermission isPinnedOnTop maxPolls p st env).polled = true ∧
      (waitForPermissionDialogCompletion p.query p.initialStatus maxPolls = true →
        (∀ e, p.op 0 = .error e →
          (handleScreenRecordingPermission isPinnedOnTop maxPolls p st env).outcome =
              p.op 1 ∧
            (handleScreenRecordingPermission isPinnedOnTop maxPolls p st env).opCalls = 2) ∧
        (∀ v, p.op 0 = .ok v →
          (handleScreenRecordingPermission isPinnedOnTop maxPolls p st env).outcome =
              .ok v ∧
            (handleScreenRecordingPermission isPinnedOnTop maxPolls p st env).opCalls = 1)) ∧
      (waitForPermissionDialogCompletion p.query p.initialStatus maxPolls = false →
        (handleScreenRecordingPermission isPinnedOnTop maxPolls p st env).outcome =
            p.op 0 ∧
          (handleScreenRecordingPermission isPinnedOnTop maxPolls p st env).opCalls = 1)) := by
  by_cases hg : p.initialStatus = .granted
  · refine ⟨fun _ => ?_, fun hne => absurd hg hne⟩
    cases hop : p.op 0 with
    | ok v => simp [handleScreenRecordingPermission, hg, hop]
    | error e => simp [handleScreenRecordingPermission, hg, hop]
  · refine ⟨fun hgr => absurd hgr hg, fun _ => ?_⟩
    cases hW : waitForPermissionDialogCompletion p.query p.initialStatus maxPolls with
    | true =>
      refine ⟨by simp [handleScreenRecordingPermission, hg], ?_, ?_⟩
      · intro _
        constructor
        · intro e hop
          constructor <;> simp [handleScreenRecordingPermission, hg, hW, hop]
        · intro v hop
          constructor <;> simp [handleScreenRecordingPermission, hg, hW, hop]
      · intro hfalse
        simp at hfalse
    | false =>
      refine ⟨by simp [handleScreenRecordingPermission, hg], ?_, ?_⟩
      · intro htrue
        simp at htrue
      · intro _
        constructor <;> simp [handleScreenRecordingPermission, hg, hW]

/-- Claim C7 witness: baseline not granted, the first operation run fails,
the status flips at the first poll, and the single retry succeeds — the
retry's value is surfaced and the operation ran exactly twice. -/
theorem c7_permission_completion_witness :
    (handleScreenRecordingPermission true 60
        (⟨.notDetermined, fun _ => .granted,
          fun n => if n = 0 then .error "fail" else .ok "shot"⟩ :
            ScreenPermEnv String String)
        permissionDialogManager ⟨none, none, none⟩).outcome = .ok "shot" :=
  (((c7_permission_completion true 60
        (⟨.notDetermined, fun _ => .granted,
          fun n => if n = 0 then .error "fail" else .ok "shot"⟩ :
            ScreenPermEnv String String)
        permissionDialogManager ⟨none, none, none⟩).2
      (by decide)).2.1 (by decide)).1 "fail" rfl |>.1

/-- Claim C8 (counterexample): the spec's numeric-tuple comparison with
pre-release suffix ignored deems `1.3.0` and `1.3.0-beta` equal, yet the
`update-available` handler compares normalized version strings for exact
equality, finds them different, and starts a download instead of
returning to idle with an up-to-date notice. -/
theorem c8_prerelease_counterexample :
    specVersionEq "1.3.0" "1.3.0-beta" = true ∧
    updateOnAvailable "1.3.0" "1.3.0-beta" = .downloadStarted "1.3.0-beta" :=
  ⟨rfl, rfl⟩

/-- Claim C8 (amended): the handler compares the candidate version to the
running version by exact string equality after stripping one leading `v`;
when the normalized strings are equal it returns to idle with the
up-to-date notice and never starts downloading, otherwise it starts the
download; `1.3.0` equals `1.3.0` and `1.4.0` against `1.3.0` downloads. -/
theorem c8_string_equality_updater (cur avail : String) :
    (normalizeVersion cur = normalizeVersion avail →
      updateOnAvailable cur avail = .upToDate cur) ∧
    (normalizeVersion cur ≠ normalizeVersion avail →
      updateOnAvailable cur avail = .downloadStarted avail) ∧
    updateOnAvailable "1.3.0" "1.3.0" = .upToDate "1.3.0" ∧
    updateOnAvailable "1.3.0" "1.4.0" = .downloadStarted "1.4.0" ∧
    updateOnAvailable "v1.3.0" "1.3.0" = .upToDate "v1.3.0" := by
  refine ⟨fun h => ?_, fun h => ?_, rfl, rfl, rfl⟩
  · simp [updateOnAvailable, h]
  · simp [updateOnAvailable, h]

/-- Claim C8 witness: equal versions yield the up-to-date notice. -/
theorem c8_string_equality_updater_witness :
    updateOnAvailable "2.0.5" "2.0.5" = .upToDate "2.0.5" :=
  (c8_string_equality_updater "2.0.5" "2.0.5").1 rfl
